import Mathlib

/-!
Verification development for the gh-commit-dates content script
(src/content.js).  The script is shallowly embedded: URL-path
classification becomes pure functions on strings, the network becomes an
explicit environment mapping each request the script can issue to a
response outcome, and the host-page document becomes a small tree of
nodes.  Every definition follows the corresponding function of
src/content.js; abstractions of host functionality (the JSON parser, the
Link-header regular expression, the CSS selector engine) are noted at
their definition sites.
-/

namespace GhCommitDates

/-- Splitting a character sequence at every `/`, as JavaScript
`path.split("/")` does for the one-character separator: both return the
(possibly empty) chunks between consecutive slashes, including a leading
chunk before the first slash and a trailing chunk after the last one.
Written as structural recursion over the character list so that it
evaluates inside the kernel. -/
def jsSplitSlash (acc : List Char) : List Char → List String
  | [] => [String.mk acc.reverse]
  | c :: cs =>
    if c = '/' then String.mk acc.reverse :: jsSplitSlash [] cs
    else jsSplitSlash (c :: acc) cs

/-- Path splitting as performed throughout content.js:
`path.split("/").filter((part) => part)`.  A JavaScript string is falsy
exactly when it is empty, so the filter keeps the non-empty parts. -/
def splitPath (path : String) : List String :=
  (jsSplitSlash [] path.data).filter (fun part => part ≠ "")

/-- JavaScript `s.startsWith(p)`: the characters of `p` are a prefix of
the characters of `s`.  `List.isPrefixOf` is the evaluable rendering. -/
def jsStartsWith (s p : String) : Bool :=
  p.data.isPrefixOf s.data

/-- Embeds `isRepoPage` (content.js lines 60-75).  The source reads
`pathParts[0]` only after the length check has succeeded (short-circuit
of `&&`), so `headD ""` is a faithful rendering: when the length check
fails the whole conjunction is already false, and the default `""` never
starts with `"."` nor occurs in the reserved list.  The JavaScript
`Array.includes` test is rendered as decidable list membership. -/
def isRepoPage (path : String) : Bool :=
  let pathParts := splitPath path
  decide (2 ≤ pathParts.length) &&
    !(jsStartsWith (pathParts.headD "") ".") &&
    !decide ((pathParts.headD "") ∈
      ["settings", "notifications", "explore", "marketplace", "pricing"])

/-- Embeds `isCodeTab` (content.js lines 77-107): the third path segment
is read as `pathParts[2]`, rendered here as `getD 2 ""`; every branch of
the source guards the access with a length check first, kept here. -/
def isCodeTab (path : String) : Bool :=
  let pathParts := splitPath path
  if pathParts.length = 2 then true
  else if 2 < pathParts.length ∧ pathParts.getD 2 "" = "tree" then true
  else if 2 < pathParts.length ∧ pathParts.getD 2 "" = "blob" then false
  else if 2 < pathParts.length ∧ pathParts.getD 2 "" ∈
      ["issues", "pull", "actions", "projects", "security", "insights",
       "settings"] then false
  else true

/-- Embeds `getRepoInfo` (content.js lines 109-120). -/
structure RepoInfo where
  owner : String
  repo : String
  key : String
deriving DecidableEq, Repr

def getRepoInfo (path : String) : Option RepoInfo :=
  let pathParts := splitPath path
  match pathParts with
  | o :: r :: _ => some ⟨o, r, o ++ "/" ++ r⟩
  | _ => none

/-- Claim C6: `isCodeTab` classifies paths exactly as specified: a path
with exactly 2 segments qualifies; a path whose third segment is
`tree` qualifies; a path whose third segment is `blob` or one of
issues, pull, actions, projects, security, insights, settings does not
qualify; every other path with 3 or more segments qualifies. -/
theorem isCodeTab_classification (path : String) :
    ((splitPath path).length = 2 → isCodeTab path = true) ∧
    (2 < (splitPath path).length → (splitPath path).getD 2 "" = "tree" →
      isCodeTab path = true) ∧
    (2 < (splitPath path).length → (splitPath path).getD 2 "" = "blob" →
      isCodeTab path = false) ∧
    (2 < (splitPath path).length →
      (splitPath path).getD 2 "" ∈ ["issues", "pull", "actions",
        "projects", "security", "insights", "settings"] →
      isCodeTab path = false) ∧
    (2 < (splitPath path).length → (splitPath path).getD 2 "" ≠ "tree" →
      (splitPath path).getD 2 "" ∉ ["blob", "issues", "pull", "actions",
        "projects", "security", "insights", "settings"] →
      isCodeTab path = true) := by
  simp only [isCodeTab]
  generalize splitPath path = l
  refine ⟨?_, ?_, ?_, ?_, ?_⟩
  · intro h1
    rw [if_pos h1]
  · intro h1 h2
    rw [if_neg (by omega), if_pos ⟨h1, h2⟩]
  · intro h1 h2
    rw [if_neg (by omega), if_neg (by rintro ⟨-, ht⟩; rw [h2] at ht; exact absurd ht (by decide)),
      if_pos ⟨h1, h2⟩]
  · intro h1 h2
    have hnt : l.getD 2 "" ≠ "tree" := by
      intro hc; rw [hc] at h2; exact absurd h2 (by decide)
    have hnb : l.getD 2 "" ≠ "blob" := by
      intro hc; rw [hc] at h2; exact absurd h2 (by decide)
    rw [if_neg (by omega), if_neg (by rintro ⟨-, ht⟩; exact hnt ht),
      if_neg (by rintro ⟨-, hb⟩; exact hnb hb), if_pos ⟨h1, h2⟩]
  · intro h1 h2 h3
    have hnb : l.getD 2 "" ≠ "blob" := by
      intro hc; exact h3 (by rw [hc]; decide)
    have hnm : l.getD 2 "" ∉ (["issues", "pull", "actions", "projects",
        "security", "insights", "settings"] : List String) := by
      intro hc
      apply h3
      simp only [List.mem_cons] at hc ⊢
      tauto
    rw [if_neg (by omega), if_neg (by rintro ⟨-, ht⟩; exact h2 ht),
      if_neg (by rintro ⟨-, hb⟩; exact hnb hb),
      if_neg (by rintro ⟨-, hm⟩; exact hnm hm)]

/-- Witness for C6: evaluation of `isCodeTab` through the classification
theorem at the concrete path `owner/repo/tree/main`. -/
theorem isCodeTab_classification_witness :
    isCodeTab "/owner/repo/tree/main" = true :=
  (isCodeTab_classification "/owner/repo/tree/main").2.1 (by decide) (by decide)

/-- Claim C7: `isRepoPage` is true exactly when the path has at least 2
non-empty segments, its first segment does not start with `.`, and its
first segment is not in the fixed denylist (settings, notifications,
explore, marketplace, pricing); in particular it is false whenever the
first segment is in the denylist. -/
theorem isRepoPage_classification (path : String) :
    (isRepoPage path = true ↔
      2 ≤ (splitPath path).length ∧
      jsStartsWith ((splitPath path).headD "") "." = false ∧
      ((splitPath path).headD "") ∉ ["settings", "notifications",
        "explore", "marketplace", "pricing"]) ∧
    (((splitPath path).headD "") ∈ ["settings", "notifications",
        "explore", "marketplace", "pricing"] → isRepoPage path = false) := by
  simp only [isRepoPage]
  generalize splitPath path = l
  constructor
  · simp only [Bool.and_eq_true, decide_eq_true_iff, Bool.not_eq_true',
      decide_eq_false_iff_not]
    tauto
  · intro hmem
    rw [decide_eq_true hmem]
    simp

/-- Witness for C7: the denylisted first segment `settings` makes
`isRepoPage` false at the concrete path `/settings/profile`. -/
theorem isRepoPage_classification_witness :
    isRepoPage "/settings/profile" = false :=
  (isRepoPage_classification "/settings/profile").2 (by decide)

/-! ## Commit Range Resolver (content.js lines 204-306)

Network effects are embedded by an explicit environment: each URL the
resolver can request is mapped to a response outcome.  A commits
response either rejects at the `fetch` call (`fetchThrows`) or carries
the fields the script reads: `ok`, `status`, the outcome of
`response.json()` and the `Link` header obtained from
`response.headers.get("Link")`. -/

/-- One entry of a commits listing, reduced to the single field the
script reads: `entry.commit.committer.date`. -/
structure Commit where
  date : String
deriving DecidableEq, Repr

/-- Outcome of `await response.json()` on a commits response: the await
can reject (`throws`), or produce the JSON value, which the script then
treats as falsy (`null`) or as an array of commit entries (`commits`). -/
inductive BodyJson where
  | throws
  | null
  | commits (cs : List Commit)
deriving DecidableEq, Repr

/-- Observation of the raw `Link` header string.  The script reads the
header only through two host-string operations:
`linkHeader.includes("rel=last")` (written with a quoted relation in the
source) and the regular-expression match extracting the page number of
the `last` relation followed by `parseInt`.  The environment supplies
the results of those two operations; `hasRelLast` is the `includes`
result and `lastPageMatch` is the matched page number, `none` when the
regular expression does not match. -/
structure LinkObs where
  hasRelLast : Bool
  lastPageMatch : Option Nat
deriving DecidableEq, Repr

/-- Outcome of one `fetch` of a commits URL. -/
inductive CommitsOutcome where
  | fetchThrows
  | resp (ok : Bool) (status : Nat) (json : BodyJson) (link : Option LinkObs)
deriving DecidableEq, Repr

/-- Environment for `fetchCommitsData`: the response to
`commits?per_page=1` and, for every `n`, the response to
`commits?per_page=100&page=n`. -/
structure CommitsEnv where
  perPage1 : CommitsOutcome
  page : Nat → CommitsOutcome

/-- The requests the script can issue, mirroring the literal URLs built
in content.js: the repository-metadata URL, `commits?per_page=1`, and
`commits?per_page=100&page=p` (recorded with both query values). -/
inductive ApiRequest where
  | repoMeta
  | commitsPerPage1
  | commitsPage (perPage : Nat) (pageNo : Nat)
deriving DecidableEq, Repr

/-- Result shape of `fetchCommitsData`; `none` renders the JavaScript
`null`. -/
structure CommitRange where
  firstCommit : Option String
  lastCommit : Option String
deriving DecidableEq, Repr

/-- Embeds the inner `try` at content.js lines 268-289: fetch the last
page and, when it is `ok`, non-throwing, an array and non-empty, take
the date of its final entry (`firstCommits[firstCommits.length - 1]`);
every other outcome is absorbed by the inner `catch` (or by the `ok` and
length guards) and keeps the previous `firstCommitDate`. Reading
`.length` of a non-array also lands in the inner `catch`. -/
def fetchFirstViaLastPage (env : CommitsEnv) (firstCommitDate : String)
    (lastPage : Nat) : String :=
  match env.page lastPage with
  | .fetchThrows => firstCommitDate
  | .resp ok _ json _ =>
    if ok then
      match json with
      | .commits l =>
        match l.getLast? with
        | some cLast => cLast.date
        | none => firstCommitDate
      | _ => firstCommitDate
    else firstCommitDate

/-- Embeds the `else if` at content.js lines 291-295: when the page-1
body has more than one entry, the result is the date of its final
entry, else the previous value is kept.  Reading `.length` of the
JavaScript `null` body throws, which escapes to the outer `catch`
(rendered as `Except.error`); the `throws` body never reaches this point
but reading it would throw as well. -/
def firstCommitFromFirstPage (firstPageJson : BodyJson)
    (firstCommitDate : String) : Except Unit String :=
  match firstPageJson with
  | .null => .error ()
  | .throws => .error ()
  | .commits l =>
    if 1 < l.length then
      match l.getLast? with
      | some cLast => .ok cLast.date
      | none => .ok firstCommitDate
    else .ok firstCommitDate

/-- Embeds the body of the `try` at content.js lines 205-300 together
with the trace of requests issued.  `Except.error` marks every point
where an exception escapes to the outer `catch` of `fetchCommitsData`:
a rejected `fetch`, a rejected `response.json()`, a `throw` on an
unexpected status, or reading `.length` of a non-array body. -/
def fetchCommitsTry (env : CommitsEnv) :
    Except Unit CommitRange × List ApiRequest :=
  match env.perPage1 with
  | .fetchThrows => (.error (), [.commitsPerPage1])
  | .resp ok status json _ =>
    if !ok then
      if status = 404 ∨ status = 409 then (.ok ⟨none, none⟩, [.commitsPerPage1])
      else if status = 403 then (.ok ⟨none, none⟩, [.commitsPerPage1])
      else (.error (), [.commitsPerPage1])
    else
      match json with
      | .throws => (.error (), [.commitsPerPage1])
      | .null => (.ok ⟨none, none⟩, [.commitsPerPage1])
      | .commits [] => (.ok ⟨none, none⟩, [.commitsPerPage1])
      | .commits (c0 :: _) =>
        let lastCommitDate := c0.date
        match env.page 1 with
        | .fetchThrows => (.error (), [.commitsPerPage1, .commitsPage 100 1])
        | .resp ok2 _ json2 link2 =>
          if !ok2 then
            (.ok ⟨some lastCommitDate, some lastCommitDate⟩,
             [.commitsPerPage1, .commitsPage 100 1])
          else
            match json2 with
            | .throws => (.error (), [.commitsPerPage1, .commitsPage 100 1])
            | firstPageJson =>
              match link2 with
              | some lh =>
                if lh.hasRelLast then
                  match lh.lastPageMatch with
                  | some lastPage =>
                    (.ok ⟨some (fetchFirstViaLastPage env lastCommitDate lastPage),
                          some lastCommitDate⟩,
                     [.commitsPerPage1, .commitsPage 100 1,
                      .commitsPage 100 lastPage])
                  | none =>
                    (.ok ⟨some lastCommitDate, some lastCommitDate⟩,
                     [.commitsPerPage1, .commitsPage 100 1])
                else
                  match firstCommitFromFirstPage firstPageJson lastCommitDate with
                  | .ok d => (.ok ⟨some d, some lastCommitDate⟩,
                              [.commitsPerPage1, .commitsPage 100 1])
                  | .error e => (.error e, [.commitsPerPage1, .commitsPage 100 1])
              | none =>
                match firstCommitFromFirstPage firstPageJson lastCommitDate with
                | .ok d => (.ok ⟨some d, some lastCommitDate⟩,
                            [.commitsPerPage1, .commitsPage 100 1])
                | .error e => (.error e, [.commitsPerPage1, .commitsPage 100 1])

/-- Embeds `fetchCommitsData` (content.js lines 204-306): the outer
`catch` turns every escaped exception into
`{ firstCommit: null, lastCommit: null }`. -/
def fetchCommitsData (env : CommitsEnv) : CommitRange × List ApiRequest :=
  match fetchCommitsTry env with
  | (.ok r, tr) => (r, tr)
  | (.error _, tr) => (⟨none, none⟩, tr)

/-- Whether a Link-header observation advertises a `last` relation, the
condition of content.js line 263. -/
def advertisesLast : Option LinkObs → Bool
  | some lh => lh.hasRelLast
  | none => false

/-- Claim C1: `fetchCommitsData` never raises.  The embedding returns a
plain value for every environment; in particular every exception that
escapes the try body is converted to absent/absent by the outer catch,
and a 404, 409 or 403 status on the most-recent-commit request resolves
to absent/absent without reaching the catch. -/
theorem fetchCommitsData_total_and_degrades (env : CommitsEnv) :
    (∀ e, (fetchCommitsTry env).1 = Except.error e →
      (fetchCommitsData env).1 = ⟨none, none⟩) ∧
    (env.perPage1 = CommitsOutcome.fetchThrows →
      (fetchCommitsData env).1 = ⟨none, none⟩) ∧
    (∀ status json link,
      env.perPage1 = CommitsOutcome.resp false status json link →
      status = 404 ∨ status = 409 ∨ status = 403 →
      (fetchCommitsData env).1 = ⟨none, none⟩) := by
  refine ⟨?_, ?_, ?_⟩
  · intro e he
    unfold fetchCommitsData
    rcases h : fetchCommitsTry env with ⟨exc, tr⟩
    rw [h] at he
    simp only at he
    rw [he]
  · intro h
    unfold fetchCommitsData fetchCommitsTry
    rw [h]
  · intro status json link h hs
    unfold fetchCommitsData fetchCommitsTry
    rw [h]
    rcases hs with h4 | h9 | h3
    · simp [h4]
    · simp [h9]
    · rcases Nat.decEq status 404 with hne | heq
      · simp [h3]
      · simp [heq]

/-- Witness for C1: a 403 most-recent-commit response resolves to
absent/absent. -/
theorem fetchCommitsData_total_and_degrades_witness :
    (fetchCommitsData
      ⟨CommitsOutcome.resp false 403 BodyJson.null none,
       fun _ => CommitsOutcome.fetchThrows⟩).1 = ⟨none, none⟩ :=
  (fetchCommitsData_total_and_degrades
      ⟨CommitsOutcome.resp false 403 BodyJson.null none,
       fun _ => CommitsOutcome.fetchThrows⟩).2.2
    403 BodyJson.null none rfl (by decide)

/-- Claim C2: when the page-1 commit response advertises a `last` page
number `n`, the resolver issues a further request for exactly page `n`
at page size 100; on success the final entry of that page becomes
`firstCommit`; if the extra request fails (rejected fetch or non-ok
response) the `firstCommit` value held before the extra request — the
date of the single page-1 entry — is kept. -/
theorem fetchCommitsData_lastPage (env : CommitsEnv) (c0 : Commit)
    (cs : List Commit) (s1 s2 : Nat) (link1 : Option LinkObs)
    (json2 : BodyJson) (lh : LinkObs) (n : Nat)
    (h1 : env.perPage1 = CommitsOutcome.resp true s1 (BodyJson.commits (c0 :: cs)) link1)
    (h2 : env.page 1 = CommitsOutcome.resp true s2 json2 (some lh))
    (hj : json2 ≠ BodyJson.throws)
    (hrel : lh.hasRelLast = true)
    (hmatch : lh.lastPageMatch = some n) :
    ApiRequest.commitsPage 100 n ∈ (fetchCommitsData env).2 ∧
    (fetchCommitsData env).1.lastCommit = some c0.date ∧
    (∀ s3 l3 link3 cLast,
      env.page n = CommitsOutcome.resp true s3 (BodyJson.commits l3) link3 →
      l3.getLast? = some cLast →
      (fetchCommitsData env).1.firstCommit = some cLast.date) ∧
    (env.page n = CommitsOutcome.fetchThrows →
      (fetchCommitsData env).1.firstCommit = some c0.date) ∧
    (∀ s3 j3 link3,
      env.page n = CommitsOutcome.resp false s3 j3 link3 →
      (fetchCommitsData env).1.firstCommit = some c0.date) := by
  have hmain : fetchCommitsData env =
      (⟨some (fetchFirstViaLastPage env c0.date n), some c0.date⟩,
       [ApiRequest.commitsPerPage1, ApiRequest.commitsPage 100 1,
        ApiRequest.commitsPage 100 n]) := by
    unfold fetchCommitsData fetchCommitsTry
    rw [h1, h2]
    rcases json2 with _ | _ | l2
    · exact absurd rfl hj
    · simp [hrel, hmatch]
    · simp [hrel, hmatch]
  rw [hmain]
  refine ⟨by simp, rfl, ?_, ?_, ?_⟩
  · intro s3 l3 link3 cLast h3 hlast
    simp [fetchFirstViaLastPage, h3, hlast]
  · intro h3
    simp only [fetchFirstViaLastPage, h3]
  · intro s3 j3 link3 h3
    simp only [fetchFirstViaLastPage, h3]
    simp

/-- Witness for C2: a Link header advertising last page 5, with page 5
holding two commits, makes the resolver request page 5 and take the
date of its final entry. -/
theorem fetchCommitsData_lastPage_witness :
    ApiRequest.commitsPage 100 5 ∈
      (fetchCommitsData
        ⟨CommitsOutcome.resp true 200 (BodyJson.commits [⟨"t9"⟩]) none,
         fun n => if n = 5
           then CommitsOutcome.resp true 200 (BodyJson.commits [⟨"t2"⟩, ⟨"t1"⟩]) none
           else CommitsOutcome.resp true 200 (BodyJson.commits [⟨"t9"⟩])
             (some ⟨true, some 5⟩)⟩).2 ∧
    (fetchCommitsData
        ⟨CommitsOutcome.resp true 200 (BodyJson.commits [⟨"t9"⟩]) none,
         fun n => if n = 5
           then CommitsOutcome.resp true 200 (BodyJson.commits [⟨"t2"⟩, ⟨"t1"⟩]) none
           else CommitsOutcome.resp true 200 (BodyJson.commits [⟨"t9"⟩])
             (some ⟨true, some 5⟩)⟩).1.firstCommit = some "t1" := by
  have h := fetchCommitsData_lastPage
    ⟨CommitsOutcome.resp true 200 (BodyJson.commits [⟨"t9"⟩]) none,
     fun n => if n = 5
       then CommitsOutcome.resp true 200 (BodyJson.commits [⟨"t2"⟩, ⟨"t1"⟩]) none
       else CommitsOutcome.resp true 200 (BodyJson.commits [⟨"t9"⟩])
         (some ⟨true, some 5⟩)⟩
    ⟨"t9"⟩ [] 200 200 none (BodyJson.commits [⟨"t9"⟩]) ⟨true, some 5⟩ 5
    rfl (by simp) (by decide) rfl rfl
  exact ⟨h.1, h.2.2.1 200 [⟨"t2"⟩, ⟨"t1"⟩] none ⟨"t1"⟩ (by simp) (by decide)⟩

/-- Claim C3: a repository whose commit listing has exactly one entry
with timestamp `T` resolves to `firstCommit = lastCommit = T`: the
per_page=1 request supplies `lastCommit`, and `firstCommit` keeps its
default, the same value. -/
theorem fetchCommitsData_singleCommit (env : CommitsEnv) (T : String)
    (s1 s2 : Nat) (link1 : Option LinkObs)
    (h1 : env.perPage1 = CommitsOutcome.resp true s1 (BodyJson.commits [⟨T⟩]) link1)
    (h2 : env.page 1 = CommitsOutcome.resp true s2 (BodyJson.commits [⟨T⟩]) none) :
    (fetchCommitsData env).1 = ⟨some T, some T⟩ := by
  unfold fetchCommitsData fetchCommitsTry
  rw [h1, h2]
  simp [firstCommitFromFirstPage]

/-- Witness for C3: a one-commit repository with timestamp `T0`. -/
theorem fetchCommitsData_singleCommit_witness :
    (fetchCommitsData
      ⟨CommitsOutcome.resp true 200 (BodyJson.commits [⟨"T0"⟩]) none,
       fun _ => CommitsOutcome.resp true 200 (BodyJson.commits [⟨"T0"⟩]) none⟩).1 =
      ⟨some "T0", some "T0"⟩ :=
  fetchCommitsData_singleCommit
    ⟨CommitsOutcome.resp true 200 (BodyJson.commits [⟨"T0"⟩]) none,
     fun _ => CommitsOutcome.resp true 200 (BodyJson.commits [⟨"T0"⟩]) none⟩
    "T0" 200 200 none rfl rfl

/-- Claim C4: when the page-1 (per_page=100) response is ok with more
than one entry and its Link header advertises no `last` relation,
`firstCommit` is the date of the final entry of that page and
`lastCommit` is the date of the first entry of the per_page=1
response. -/
theorem fetchCommitsData_noLastLink (env : CommitsEnv) (c0 : Commit)
    (cs : List Commit) (s1 s2 : Nat) (link1 link2 : Option LinkObs)
    (l : List Commit) (cLast : Commit)
    (h1 : env.perPage1 = CommitsOutcome.resp true s1 (BodyJson.commits (c0 :: cs)) link1)
    (h2 : env.page 1 = CommitsOutcome.resp true s2 (BodyJson.commits l) link2)
    (hno : advertisesLast link2 = false)
    (hlen : 1 < l.length)
    (hlast : l.getLast? = some cLast) :
    (fetchCommitsData env).1 = ⟨some cLast.date, some c0.date⟩ := by
  unfold fetchCommitsData fetchCommitsTry
  rw [h1, h2]
  have hfp : firstCommitFromFirstPage (BodyJson.commits l) c0.date =
      Except.ok cLast.date := by
    simp only [firstCommitFromFirstPage, if_pos hlen, hlast]
  rcases link2 with _ | lh
  · simp [hfp]
  · have hrel : lh.hasRelLast = false := by
      simpa [advertisesLast] using hno
    simp [hrel, hfp]

/-- Witness for C4: page 1 with three commits and no `last` relation. -/
theorem fetchCommitsData_noLastLink_witness :
    (fetchCommitsData
      ⟨CommitsOutcome.resp true 200 (BodyJson.commits [⟨"t3"⟩]) none,
       fun _ => CommitsOutcome.resp true 200
         (BodyJson.commits [⟨"t3"⟩, ⟨"t2"⟩, ⟨"t1"⟩]) none⟩).1 =
      ⟨some "t1", some "t3"⟩ :=
  fetchCommitsData_noLastLink
    ⟨CommitsOutcome.resp true 200 (BodyJson.commits [⟨"t3"⟩]) none,
     fun _ => CommitsOutcome.resp true 200
       (BodyJson.commits [⟨"t3"⟩, ⟨"t2"⟩, ⟨"t1"⟩]) none⟩
    ⟨"t3"⟩ [] 200 200 none none [⟨"t3"⟩, ⟨"t2"⟩, ⟨"t1"⟩] ⟨"t1"⟩
    rfl rfl (by decide) (by decide) (by decide)

/-! ## Render/Insert Controller (content.js lines 320-518)

The host document is abstracted to the structure the script observes
and mutates: fragment elements (the containers carrying the reserved id
and class `repo-dates-extension`) and host containers, of which some
are matched by the sidebar selector list of `insertIntoSidebar`.  The
CSS selector engine is host functionality; `container true` marks an
element matched by one of the sidebar selectors.  The retry loop of
`displayDateInfo` only re-runs `insertIntoSidebar`, which is a no-op
whenever a fragment already exists or no sidebar is found, so a single
attempt captures the document transformation. -/

/-- One visible row of the rendered fragment: a labelled date row built
by `createGitHubStyleDateElement`, or the warning row written by
`displayError`. -/
inductive Row where
  | dateRow (label : String) (date : Option String)
  | warningRow
deriving DecidableEq, Repr

/-- The rendered container.  Every `Fragment` in the model carries the
reserved id and class `repo-dates-extension` set at content.js lines
376-377. -/
structure Fragment where
  rows : List Row
deriving DecidableEq, Repr

/-- A node of the abstracted host document: a rendered fragment, or a
host container (`sidebar = true` when one of the sidebar selectors
matches it) holding the fragments inserted into it. -/
inductive DocNode where
  | frag (f : Fragment)
  | container (sidebar : Bool) (children : List Fragment)
deriving DecidableEq, Repr

/-- The dates record passed around the script; fields may be the
JavaScript `null`/`undefined`, rendered as `none`. -/
structure RepoDates where
  createdAt : Option String
  firstCommit : Option String
  lastCommit : Option String
deriving DecidableEq, Repr

/-- Embeds `createGitHubStyleContainer` (content.js lines 374-438): a
fragment with the three labelled date rows. -/
def createGitHubStyleContainer (dates : RepoDates) : Fragment :=
  ⟨[Row.dateRow "Repository Created" dates.createdAt,
    Row.dateRow "First Commit" dates.firstCommit,
    Row.dateRow "Latest Commit" dates.lastCommit]⟩

/-- Number of reserved-identity elements in the document, i.e. what
`querySelectorAll` with the reserved id/class selector finds. -/
def countFragments : List DocNode → Nat
  | [] => 0
  | DocNode.frag _ :: rest => 1 + countFragments rest
  | DocNode.container _ cs :: rest => cs.length + countFragments rest

/-- Whether `document.getElementById("repo-dates-extension")` finds an
element. -/
def hasFragment : List DocNode → Bool
  | [] => false
  | DocNode.frag _ :: _ => true
  | DocNode.container _ cs :: rest => !cs.isEmpty || hasFragment rest

/-- Insertion into the first container matched by the sidebar selector
list: the new fragment becomes a child of that container (the source
picks the position relative to an about section, which the model does
not distinguish).  `none` when no selector matches. -/
def insertFirstSidebar (f : Fragment) : List DocNode → Option (List DocNode)
  | [] => none
  | DocNode.container true cs :: rest =>
    some (DocNode.container true (f :: cs) :: rest)
  | n :: rest =>
    match insertFirstSidebar f rest with
    | some d => some (n :: d)
    | none => none

/-- Embeds `insertIntoSidebar` (content.js lines 336-372): if a
reserved-identity element already exists, report success without
touching the document; otherwise build a fresh container from `dates`
and insert it into the first matching sidebar; report failure when no
sidebar is found. -/
def insertIntoSidebar (dates : RepoDates) (doc : List DocNode) :
    List DocNode × Bool :=
  if hasFragment doc then (doc, true)
  else
    match insertFirstSidebar (createGitHubStyleContainer dates) doc with
    | some d => (d, true)
    | none => (doc, false)

/-- Embeds `displayDateInfo` (content.js lines 320-334): the bounded
retry loop around `insertIntoSidebar`; each attempt performs the same
document transformation, so the resulting document is that of one
attempt. -/
def displayDateInfo (dates : RepoDates) (doc : List DocNode) : List DocNode :=
  (insertIntoSidebar dates doc).1

/-- Embeds `removePreviousDateInfo` (content.js lines 512-518): every
element matching the reserved id or class is removed, wherever it
sits. -/
def removePreviousDateInfo : List DocNode → List DocNode
  | [] => []
  | DocNode.frag _ :: rest => removePreviousDateInfo rest
  | DocNode.container s _ :: rest =>
    DocNode.container s [] :: removePreviousDateInfo rest

/-- Embeds `displayError` (content.js lines 489-510), faithfully
including its slip: a container is built, its body is replaced by the
single warning row, and that local value is then discarded —
`insertIntoSidebar` is called with the all-null dates record and builds
its own fresh three-row container. -/
def displayError (doc : List DocNode) : List DocNode :=
  let container := createGitHubStyleContainer ⟨none, none, none⟩
  let _errorContainer : Fragment := { container with rows := [Row.warningRow] }
  (insertIntoSidebar ⟨none, none, none⟩ doc).1

/-- Removal leaves no reserved-identity element behind. -/
theorem countFragments_removePreviousDateInfo (doc : List DocNode) :
    countFragments (removePreviousDateInfo doc) = 0 := by
  induction doc with
  | nil => rfl
  | cons n rest ih =>
    cases n with
    | frag f => simpa [removePreviousDateInfo, countFragments] using ih
    | container s cs => simpa [removePreviousDateInfo, countFragments] using ih

/-- Successful sidebar insertion adds exactly one reserved-identity
element. -/
theorem countFragments_insertFirstSidebar (f : Fragment) (doc d : List DocNode)
    (h : insertFirstSidebar f doc = some d) :
    countFragments d = countFragments doc + 1 := by
  induction doc generalizing d with
  | nil => simp [insertFirstSidebar] at h
  | cons n rest ih =>
    cases n with
    | frag g =>
      simp only [insertFirstSidebar] at h
      cases hrec : insertFirstSidebar f rest with
      | none => rw [hrec] at h; simp at h
      | some d0 =>
        rw [hrec] at h
        simp only [Option.some.injEq] at h
        subst h
        simp [countFragments, ih d0 hrec, Nat.add_assoc]
    | container s cs =>
      cases s with
      | true =>
        simp only [insertFirstSidebar, Option.some.injEq] at h
        subst h
        simp [countFragments]
        omega
      | false =>
        simp only [insertFirstSidebar] at h
        cases hrec : insertFirstSidebar f rest with
        | none => rw [hrec] at h; simp at h
        | some d0 =>
          rw [hrec] at h
          simp only [Option.some.injEq] at h
          subst h
          simp [countFragments, ih d0 hrec]
          omega

/-- Claim C8: a render — `removePreviousDateInfo` followed by the
insertion performed by `displayDateInfo` — first removes every prior
reserved-identity element and leaves at most one in the document; since
this holds for every starting document, repeated renders also maintain
the bound. -/
theorem render_unique_fragment (dates : RepoDates) (doc : List DocNode) :
    countFragments (removePreviousDateInfo doc) = 0 ∧
    countFragments (displayDateInfo dates (removePreviousDateInfo doc)) ≤ 1 := by
  refine ⟨countFragments_removePreviousDateInfo doc, ?_⟩
  unfold displayDateInfo insertIntoSidebar
  set doc0 := removePreviousDateInfo doc with hdoc0
  by_cases h : hasFragment doc0 = true
  · rw [if_pos h]
    simp [countFragments_removePreviousDateInfo doc, hdoc0]
  · rw [if_neg (by simpa using h)]
    cases hins : insertFirstSidebar (createGitHubStyleContainer dates) doc0 with
    | none => simp [countFragments_removePreviousDateInfo doc, hdoc0]
    | some d =>
      have := countFragments_insertFirstSidebar _ _ _ hins
      rw [hdoc0, countFragments_removePreviousDateInfo doc] at this
      simp [this]

/-- Claim C5 (divergence record): on total failure, `displayError`
builds the warning container but never inserts it; the call to
`insertIntoSidebar` builds a fresh container from the all-null dates
record, so the document that reaches the page shows the three date
rows (each rendering as N/A), not the single warning row. -/
theorem displayError_inserts_na_rows :
    displayError [DocNode.container true []] =
      [DocNode.container true
        [⟨[Row.dateRow "Repository Created" none,
           Row.dateRow "First Commit" none,
           Row.dateRow "Latest Commit" none]⟩]] ∧
    displayError [DocNode.container true []] ≠
      [DocNode.container true [⟨[Row.warningRow]⟩]] := by
  constructor
  · rfl
  · decide

/-! ## Repository Metadata Fetcher and Lifecycle (content.js lines 122-202)

`loadRepoData` is embedded as a transition on the extension state: the
in-memory cache (`this.cachedData`, an association list standing for
the `Map`), the loading guard (`this.currentlyLoading`) and the
abstracted document.  The environment fixes the response to every
request, so each of the at-most-two metadata fetches of one invocation
observes the same outcome. -/

/-- The repository-metadata JSON, reduced to the single field the
script reads: `created_at` (`none` when the field is missing, which
the script stores and later renders as N/A). -/
structure RepoMeta where
  created_at : Option String
deriving DecidableEq, Repr

/-- Outcome of one `fetch` of the repository-metadata URL: a rejected
fetch, or a response with `ok`, `status` and the `response.json()`
outcome (`none` when that await rejects). -/
inductive MetaOutcome where
  | fetchThrows
  | resp (ok : Bool) (status : Nat) (json : Option RepoMeta)
deriving DecidableEq, Repr

/-- Embeds `fetchRepoData` (content.js lines 187-202): a non-ok
response raises (`throw new Error`), a rejected fetch re-raises, and
the returned `response.json()` promise rejecting surfaces at the
`await` at the caller; all three are `Except.error` here. -/
def fetchRepoData (out : MetaOutcome) : Except Unit RepoMeta × List ApiRequest :=
  match out with
  | .fetchThrows => (.error (), [.repoMeta])
  | .resp ok _ json =>
    if !ok then (.error (), [.repoMeta])
    else
      match json with
      | none => (.error (), [.repoMeta])
      | some m => (.ok m, [.repoMeta])

/-- Environment for one `loadRepoData` invocation: the metadata
response and the commits responses. -/
structure FetchEnv where
  repoMeta : MetaOutcome
  commits : CommitsEnv

/-- The mutable fields of the `GitHubRepoDates` instance that
`loadRepoData` touches, plus the abstracted document. -/
structure ExtState where
  cachedData : List (String × RepoDates)
  currentlyLoading : Option String
  doc : List DocNode

/-- Lookup in the cache `Map` (`this.cachedData.has`/`get`). -/
def cacheGet (m : List (String × RepoDates)) (k : String) : Option RepoDates :=
  match m with
  | [] => none
  | (k0, v) :: rest => if k0 = k then some v else cacheGet rest k

/-- Update of the cache `Map` (`this.cachedData.set`). -/
def cacheSet (m : List (String × RepoDates)) (k : String) (v : RepoDates) :
    List (String × RepoDates) :=
  match m with
  | [] => [(k, v)]
  | (k0, v0) :: rest =>
    if k0 = k then (k, v) :: rest else (k0, v0) :: cacheSet rest k v

/-- Embeds `loadRepoData` (content.js lines 122-185) as one state
transition, returning the new state and the requests issued.  The
`catch` of the combined fetch retries `fetchRepoData` (the best-effort
fallback); under a fixed environment that retry observes the same
outcome, so total failure is exactly a failing metadata response.  On
total failure `displayError` runs and nothing is stored in the
cache. -/
def loadRepoData (path : String) (env : FetchEnv) (st : ExtState) :
    ExtState × List ApiRequest :=
  match getRepoInfo path with
  | none => (st, [])
  | some repoInfo =>
    if st.currentlyLoading = some repoInfo.key then (st, [])
    else
      let st1 : ExtState :=
        { st with currentlyLoading := some repoInfo.key,
                  doc := removePreviousDateInfo st.doc }
      match cacheGet st1.cachedData repoInfo.key with
      | some cachedDates =>
        ({ st1 with doc := displayDateInfo cachedDates st1.doc,
                    currentlyLoading := none }, [])
      | none =>
        match fetchRepoData env.repoMeta with
        | (Except.ok repoData, tr1) =>
          let commitsResult := fetchCommitsData env.commits
          let dates : RepoDates :=
            ⟨repoData.created_at, commitsResult.1.firstCommit,
             commitsResult.1.lastCommit⟩
          let st2 : ExtState :=
            { st1 with cachedData := cacheSet st1.cachedData repoInfo.key dates }
          ({ st2 with doc := displayDateInfo dates st2.doc,
                      currentlyLoading := none }, tr1 ++ commitsResult.2)
        | (Except.error _, tr1) =>
          match fetchRepoData env.repoMeta with
          | (Except.ok repoData, trF) =>
            let dates : RepoDates := ⟨repoData.created_at, none, none⟩
            let st2 : ExtState :=
              { st1 with cachedData := cacheSet st1.cachedData repoInfo.key dates }
            ({ st2 with doc := displayDateInfo dates st2.doc,
                        currentlyLoading := none }, tr1 ++ trF)
          | (Except.error _, trF) =>
            ({ st1 with doc := displayError st1.doc,
                        currentlyLoading := none }, tr1 ++ trF)

/-- Characterization of the cache-hit branch of `loadRepoData`
(content.js lines 134-139). -/
theorem loadRepoData_hit (path : String) (env : FetchEnv) (st : ExtState)
    (repoInfo : RepoInfo) (d : RepoDates)
    (hinfo : getRepoInfo path = some repoInfo)
    (hguard : st.currentlyLoading ≠ some repoInfo.key)
    (hhit : cacheGet st.cachedData repoInfo.key = some d) :
    loadRepoData path env st =
      ({ st with doc := displayDateInfo d (removePreviousDateInfo st.doc),
                 currentlyLoading := none }, []) := by
  unfold loadRepoData
  simp only [hinfo, if_neg hguard, hhit]

/-- Characterization of the successful combined-fetch branch of
`loadRepoData` (content.js lines 141-161). -/
theorem loadRepoData_success (path : String) (env : FetchEnv) (st : ExtState)
    (repoInfo : RepoInfo) (m : RepoMeta)
    (hinfo : getRepoInfo path = some repoInfo)
    (hguard : st.currentlyLoading ≠ some repoInfo.key)
    (hmiss : cacheGet st.cachedData repoInfo.key = none)
    (hmeta : fetchRepoData env.repoMeta = (Except.ok m, [ApiRequest.repoMeta])) :
    loadRepoData path env st =
      ({ st with
          cachedData := cacheSet st.cachedData repoInfo.key
            ⟨m.created_at, (fetchCommitsData env.commits).1.firstCommit,
             (fetchCommitsData env.commits).1.lastCommit⟩,
          doc := displayDateInfo
            ⟨m.created_at, (fetchCommitsData env.commits).1.firstCommit,
             (fetchCommitsData env.commits).1.lastCommit⟩
            (removePreviousDateInfo st.doc),
          currentlyLoading := none },
       [ApiRequest.repoMeta] ++ (fetchCommitsData env.commits).2) := by
  unfold loadRepoData
  simp only [hinfo, if_neg hguard, hmiss, hmeta]

/-- Characterization of the total-failure branch of `loadRepoData`
(content.js lines 162-184): metadata fetch and fallback both fail, the
error fragment is rendered, the cache is untouched. -/
theorem loadRepoData_failure (path : String) (env : FetchEnv) (st : ExtState)
    (repoInfo : RepoInfo)
    (hinfo : getRepoInfo path = some repoInfo)
    (hguard : st.currentlyLoading ≠ some repoInfo.key)
    (hmiss : cacheGet st.cachedData repoInfo.key = none)
    (hmeta : fetchRepoData env.repoMeta =
      (Except.error (), [ApiRequest.repoMeta])) :
    loadRepoData path env st =
      ({ st with doc := displayError (removePreviousDateInfo st.doc),
                 currentlyLoading := none },
       [ApiRequest.repoMeta, ApiRequest.repoMeta]) := by
  unfold loadRepoData
  simp only [hinfo, if_neg hguard, hmiss, hmeta]
  rfl

/-- Freshly set cache entries are found by lookup. -/
theorem cacheGet_cacheSet_same (c : List (String × RepoDates)) (k : String)
    (v : RepoDates) : cacheGet (cacheSet c k v) k = some v := by
  induction c with
  | nil => simp [cacheSet, cacheGet]
  | cons kv rest ih =>
    rcases kv with ⟨k0, v0⟩
    by_cases hk : k0 = k
    · simp [cacheSet, cacheGet, hk]
    · simp [cacheSet, cacheGet, hk, ih]

/-- Claim C9: after a first successful `loadRepoData` for a key, a
second invocation for the same path — under any later environment —
issues no requests, leaves the cache untouched (so the entry is never
overwritten or refreshed), and the entry holds the dates fetched the
first time. -/
theorem loadRepoData_cached_second_call (path : String) (env : FetchEnv)
    (st : ExtState) (repoInfo : RepoInfo) (m : RepoMeta)
    (hinfo : getRepoInfo path = some repoInfo)
    (hguard : st.currentlyLoading ≠ some repoInfo.key)
    (hmiss : cacheGet st.cachedData repoInfo.key = none)
    (hmeta : fetchRepoData env.repoMeta =
      (Except.ok m, [ApiRequest.repoMeta])) :
    cacheGet (loadRepoData path env st).1.cachedData repoInfo.key =
      some ⟨m.created_at, (fetchCommitsData env.commits).1.firstCommit,
            (fetchCommitsData env.commits).1.lastCommit⟩ ∧
    (∀ env2 : FetchEnv,
      (loadRepoData path env2 (loadRepoData path env st).1).2 = [] ∧
      (loadRepoData path env2 (loadRepoData path env st).1).1.cachedData =
        (loadRepoData path env st).1.cachedData) := by
  rw [loadRepoData_success path env st repoInfo m hinfo hguard hmiss hmeta]
  refine ⟨cacheGet_cacheSet_same _ _ _, ?_⟩
  intro env2
  rw [loadRepoData_hit path env2 _ repoInfo
    ⟨m.created_at, (fetchCommitsData env.commits).1.firstCommit,
     (fetchCommitsData env.commits).1.lastCommit⟩ hinfo
    (by simp) (cacheGet_cacheSet_same _ _ _)]
  exact ⟨rfl, rfl⟩

/-- Witness for C9: a concrete first fetch for `o/r` caches the dates
and the repeated invocation is served without requests. -/
theorem loadRepoData_cached_second_call_witness :
    (cacheGet
      (loadRepoData "/o/r"
        ⟨MetaOutcome.resp true 200 (some ⟨some "c0"⟩),
         ⟨CommitsOutcome.resp true 200 (BodyJson.commits [⟨"T0"⟩]) none,
          fun _ => CommitsOutcome.resp true 200 (BodyJson.commits [⟨"T0"⟩]) none⟩⟩
        ⟨[], none, [DocNode.container true []]⟩).1.cachedData "o/r" =
      some ⟨some "c0", some "T0", some "T0"⟩) ∧
    (loadRepoData "/o/r"
      ⟨MetaOutcome.fetchThrows,
       ⟨CommitsOutcome.fetchThrows, fun _ => CommitsOutcome.fetchThrows⟩⟩
      (loadRepoData "/o/r"
        ⟨MetaOutcome.resp true 200 (some ⟨some "c0"⟩),
         ⟨CommitsOutcome.resp true 200 (BodyJson.commits [⟨"T0"⟩]) none,
          fun _ => CommitsOutcome.resp true 200 (BodyJson.commits [⟨"T0"⟩]) none⟩⟩
        ⟨[], none, [DocNode.container true []]⟩).1).2 = [] := by
  have h := loadRepoData_cached_second_call "/o/r"
    ⟨MetaOutcome.resp true 200 (some ⟨some "c0"⟩),
     ⟨CommitsOutcome.resp true 200 (BodyJson.commits [⟨"T0"⟩]) none,
      fun _ => CommitsOutcome.resp true 200 (BodyJson.commits [⟨"T0"⟩]) none⟩⟩
    ⟨[], none, [DocNode.container true []]⟩
    ⟨"o", "r", "o/r"⟩ ⟨some "c0"⟩
    (by decide) (by decide) (by decide) rfl
  exact ⟨h.1, (h.2 ⟨MetaOutcome.fetchThrows,
    ⟨CommitsOutcome.fetchThrows, fun _ => CommitsOutcome.fetchThrows⟩⟩).1⟩

/-- Claim C10: when the metadata fetch fails — so the combined fetch
and the metadata-only fallback both fail — `loadRepoData` stores
nothing in the cache and clears the loading guard; a later invocation
for the same key therefore goes back to the network: it issues the
metadata request again and, when that now succeeds, caches the
result. -/
theorem loadRepoData_total_failure_not_cached (path : String)
    (env : FetchEnv) (st : ExtState) (repoInfo : RepoInfo)
    (hinfo : getRepoInfo path = some repoInfo)
    (hguard : st.currentlyLoading ≠ some repoInfo.key)
    (hmiss : cacheGet st.cachedData repoInfo.key = none)
    (hmeta : fetchRepoData env.repoMeta =
      (Except.error (), [ApiRequest.repoMeta])) :
    (loadRepoData path env st).1.cachedData = st.cachedData ∧
    (loadRepoData path env st).1.currentlyLoading = none ∧
    (∀ (env2 : FetchEnv) (m2 : RepoMeta),
      fetchRepoData env2.repoMeta = (Except.ok m2, [ApiRequest.repoMeta]) →
      ApiRequest.repoMeta ∈ (loadRepoData path env2 (loadRepoData path env st).1).2 ∧
      cacheGet (loadRepoData path env2 (loadRepoData path env st).1).1.cachedData
          repoInfo.key =
        some ⟨m2.created_at, (fetchCommitsData env2.commits).1.firstCommit,
              (fetchCommitsData env2.commits).1.lastCommit⟩) := by
  rw [loadRepoData_failure path env st repoInfo hinfo hguard hmiss hmeta]
  refine ⟨rfl, rfl, ?_⟩
  intro env2 m2 hmeta2
  rw [loadRepoData_success path env2 _ repoInfo m2 hinfo (by simp)
    (by simpa using hmiss) hmeta2]
  exact ⟨by simp, cacheGet_cacheSet_same _ _ _⟩

/-- Witness for C10: a failing metadata fetch for `o/r` caches nothing,
and the retry under a working environment fetches and caches. -/
theorem loadRepoData_total_failure_not_cached_witness :
    ((loadRepoData "/o/r"
        ⟨MetaOutcome.fetchThrows,
         ⟨CommitsOutcome.fetchThrows, fun _ => CommitsOutcome.fetchThrows⟩⟩
        ⟨[], none, [DocNode.container true []]⟩).1.cachedData = []) ∧
    ApiRequest.repoMeta ∈
      (loadRepoData "/o/r"
        ⟨MetaOutcome.resp true 200 (some ⟨some "c1"⟩),
         ⟨CommitsOutcome.resp true 200 (BodyJson.commits [⟨"T1"⟩]) none,
          fun _ => CommitsOutcome.resp true 200 (BodyJson.commits [⟨"T1"⟩]) none⟩⟩
        (loadRepoData "/o/r"
          ⟨MetaOutcome.fetchThrows,
           ⟨CommitsOutcome.fetchThrows, fun _ => CommitsOutcome.fetchThrows⟩⟩
          ⟨[], none, [DocNode.container true []]⟩).1).2 := by
  have h := loadRepoData_total_failure_not_cached "/o/r"
    ⟨MetaOutcome.fetchThrows,
     ⟨CommitsOutcome.fetchThrows, fun _ => CommitsOutcome.fetchThrows⟩⟩
    ⟨[], none, [DocNode.container true []]⟩
    ⟨"o", "r", "o/r"⟩
    (by decide) (by decide) (by decide) rfl
  exact ⟨h.1, (h.2.2
    ⟨MetaOutcome.resp true 200 (some ⟨some "c1"⟩),
     ⟨CommitsOutcome.resp true 200 (BodyJson.commits [⟨"T1"⟩]) none,
      fun _ => CommitsOutcome.resp true 200 (BodyJson.commits [⟨"T1"⟩]) none⟩⟩
    ⟨some "c1"⟩ rfl).1⟩

end GhCommitDates
